import Mathlib

/-!
Verification of the multi-signal APK risk-aggregation engine
(`analyzer/apk_analyzer.py`) against its natural-language specification.

The Python module is shallowly embedded: pure helper functions become Lean
functions; the module-level static tables become Lean constants; Python
`float` arithmetic (IEEE-754 binary64, round-to-nearest-even) is embedded
exactly over `ℚ` by an explicit rounding function `roundD`; Python `int()`
truncation becomes `pyTrunc`; code that can raise is given an explicit
`PyResult` input describing whether the collaborator call succeeded or
raised.  Machine strings are Lean `String`s (the analysed data is ASCII;
Python's `str.lower` / `re.IGNORECASE` are modelled by ASCII case folding,
faithful on the ASCII pattern catalog of the source).

The file is organised as definitions first (the embedding), then theorems
(the claims and their supporting lemmas).
-/

/-! ### Static configuration tables (lines 11-68) -/

/-- `PERMISSION_SCORES` table, `apk_analyzer.py` lines 12-37. -/
def PERMISSION_SCORES : List (String × Nat) := [
  ("android.permission.READ_SMS", 200),
  ("android.permission.SEND_SMS", 200),
  ("android.permission.RECEIVE_SMS", 200),
  ("android.permission.CALL_PHONE", 150),
  ("android.permission.READ_CONTACTS", 120),
  ("android.permission.WRITE_CONTACTS", 120),
  ("android.permission.READ_CALL_LOG", 150),
  ("android.permission.WRITE_CALL_LOG", 150),
  ("android.permission.PROCESS_OUTGOING_CALLS", 150),
  ("android.permission.GET_ACCOUNTS", 100),
  ("android.permission.AUTHENTICATE_ACCOUNTS", 100),
  ("android.permission.CAMERA", 80),
  ("android.permission.RECORD_AUDIO", 80),
  ("android.permission.ACCESS_FINE_LOCATION", 70),
  ("android.permission.ACCESS_COARSE_LOCATION", 70),
  ("android.permission.REQUEST_INSTALL_PACKAGES", 90),
  ("android.permission.SYSTEM_ALERT_WINDOW", 100),
  ("android.permission.WRITE_SETTINGS", 80),
  ("android.permission.WRITE_EXTERNAL_STORAGE", 50),
  ("android.permission.READ_EXTERNAL_STORAGE", 50),
  ("android.permission.INTERNET", 10),
  ("android.permission.ACCESS_NETWORK_STATE", 5),
  ("android.permission.VIBRATE", 2),
  ("android.permission.WAKE_LOCK", 5)]

/-- `PERMISSION_SCORES.get(permission, 0)` — dict lookup with default 0. -/
def permScore (permission : String) : Nat :=
  ((PERMISSION_SCORES.lookup permission).getD 0)

/-- `KNOWN_GOOD_DOMAINS`, lines 58-63 (a Python `set`; membership only). -/
def KNOWN_GOOD_DOMAINS : List String := [
  "google.com", "googleapis.com", "gstatic.com", "firebase.com",
  "facebook.com", "fbcdn.net", "apple.com", "icloud.com",
  "microsoft.com", "azure.com", "amazon.com", "aws.com",
  "twitter.com", "github.com", "android.com", "googletagmanager.com"]

/-- `KNOWN_BAD_DOMAINS`, lines 66-68. -/
def KNOWN_BAD_DOMAINS : List String := [
  "malicious-domain.com", "evil-server.net", "data-stealer.org"]

/-! ### Python-semantics helpers -/

/-- Outcome of a Python call that may raise: a value, or an exception
whose message is recorded. -/
inductive PyResult (α : Type) where
  | ok (val : α)
  | exn (msg : String)
deriving DecidableEq, Repr

/-- One element of an APK string pool as iterated by the scanners:
either a successfully decoded text, or an element whose processing raises
(`UnicodeDecodeError` / `AttributeError`), which the scanners skip. -/
inductive StrItem where
  | ok (text : String)
  | decodeFail
deriving DecidableEq, Repr

/-- `needle` occurs as a contiguous substring of `hay`
(Python's `in` on strings). -/
def listHasSub (needle hay : List Char) : Bool :=
  needle.isPrefixOf hay ||
    match hay with
    | [] => false
    | _ :: t => listHasSub needle t

/-- Python `sub in s` for strings. -/
def strHasSub (sub s : String) : Bool := listHasSub sub.toList s.toList

/-- `get_permission_risk`, lines 110-116. -/
def get_permission_risk (permission : String) : String :=
  let score := permScore permission
  if 100 ≤ score then "High Risk"
  else if 50 ≤ score then "Medium Risk"
  else "Low Risk"

/-- Python `str.lower()` (ASCII case folding; the analysed identifiers are
ASCII). -/
def pyLower (s : String) : String := ⟨s.data.map Char.toLower⟩

/-- Python `str.strip()`: remove leading and trailing whitespace. -/
def pyStrip (s : String) : String :=
  ⟨((s.data.dropWhile Char.isWhitespace).reverse.dropWhile
      Char.isWhitespace).reverse⟩

/-- Python `x or d` for an optional string `x`: `d` when `x` is `None` or
empty (falsy), `x` otherwise. -/
def pyOr (o : Option String) (d : String) : String :=
  match o with
  | none => d
  | some s => if s = "" then d else s

/-! ### IEEE-754 binary64 model

Python `float` arithmetic is double precision with round-to-nearest,
ties-to-even.  Every double is an exact rational, and every arithmetic
operation rounds the exact rational result; `roundD` below is that
rounding for the value range exercised by the analyzer (finite, magnitude
far below overflow and above underflow, so exponent clamping and
subnormals never trigger and are not modelled). -/

/-- Fuel-driven binary logarithm (structural recursion, so that concrete
instances reduce inside `decide`). -/
def binLogAux : Nat → Nat → Nat
  | 0, _ => 0
  | fuel + 1, n => if 2 ≤ n then binLogAux fuel (n / 2) + 1 else 0

/-- `⌊log₂ n⌋` for `n ≥ 1`. -/
def binLog (n : Nat) : Nat := binLogAux n n

/-- For `0 < q`, the unique `e` with `2^e ≤ q < 2^(e+1)`
(binary exponent of `q`): computed from the binary logarithms of the
numerator and denominator, with a one-step correction. -/
def exp2floor (q : ℚ) : ℤ :=
  if (2:ℚ) ^ ((binLog q.num.natAbs : ℤ) - binLog q.den) ≤ q
  then (binLog q.num.natAbs : ℤ) - binLog q.den
  else (binLog q.num.natAbs : ℤ) - binLog q.den - 1

/-- Round-to-nearest, ties-to-even on an integer mantissa `n` with
fractional part `f ∈ [0, 1)`. -/
def roundMant (n : ℤ) (f : ℚ) : ℤ :=
  if 1/2 < f then n + 1
  else if f < 1/2 then n
  else if n % 2 = 0 then n else n + 1

/-- Round a positive rational to 53 significant bits,
round-to-nearest, ties-to-even. -/
def roundPos (q : ℚ) : ℚ :=
  (roundMant ⌊q / 2 ^ (exp2floor q - 52)⌋
      (q / 2 ^ (exp2floor q - 52) - (⌊q / 2 ^ (exp2floor q - 52)⌋ : ℚ)) : ℚ) *
    2 ^ (exp2floor q - 52)

/-- Round an exact rational to the nearest IEEE-754 binary64 value
(ties to even). -/
def roundD (q : ℚ) : ℚ :=
  if q = 0 then 0
  else if 0 < q then roundPos q
  else -(roundPos (-q))

/-- The Python literal `0.2` as a binary64 value. -/
def fl02 : ℚ := roundD (1/5)

/-- The Python literal `0.3` as a binary64 value. -/
def fl03 : ℚ := roundD (3/10)

/-- Python `int(x)`: truncation toward zero. -/
def pyTrunc (q : ℚ) : ℤ := if 0 ≤ q then ⌊q⌋ else -⌊-q⌋

/-! ### Allowlist cache: `load_safe_apps` (lines 70-107) -/

/-- The module-level globals `_safe_apps_cache` / `_safe_apps_last_loaded`
(lines 71-72).  Timestamps are seconds. -/
structure SafeAppsState where
  cache : Option (List String)
  lastLoaded : Option Nat
deriving DecidableEq, Repr

/-- What the external safe-apps source does on one refresh attempt:
the file is missing (line 102), opening/parsing raises (line 105), or it
yields a JSON array of records whose `"package"` field is each record's
`Option String` value. -/
inductive LoadAttempt where
  | fileMissing
  | raises (msg : String)
  | success (records : List (Option String))
deriving DecidableEq, Repr

/-- `safe_apps.add(package.lower().strip())` — Python set insertion,
modelled as append-if-absent (membership-faithful). -/
def addSafeApp (s : List String) (package : String) : List String :=
  let np := pyStrip (pyLower package)
  if np ∈ s then s else s ++ [np]

/-- The cache-validity test of lines 83-85: both globals set and elapsed
time under 300 seconds.  (`Nat` subtraction truncates at 0, matching the
Python comparison `elapsed < 300` also when clocks run backwards.) -/
def cacheValid (st : SafeAppsState) (now : Nat) : Bool :=
  match st.cache, st.lastLoaded with
  | some _, some last => now - last < 300
  | _, _ => false

/-- `load_safe_apps`, lines 74-107: returns the loaded set and the new
global state. -/
def load_safe_apps (st : SafeAppsState) (now : Nat) (attempt : LoadAttempt) :
    List String × SafeAppsState :=
  if cacheValid st now then (st.cache.getD [], st)
  else
    match attempt with
    | .success records =>
        let safe_apps := records.foldl
          (fun acc r =>
            match r with
            | some package =>
                if package ≠ "" then addSafeApp acc package else acc
            | none => acc)
          []
        (safe_apps, ⟨some safe_apps, some now⟩)
    | .fileMissing => ([], st)
    | .raises _ => ([], st)

/-! ### Scoring signals -/

/-- `calculate_permission_score`, lines 118-133.  The loop sums the table
scores and collects the ≥ 100 ones in input order; the multiplier and the
final product are computed in Python `float` (binary64) arithmetic:
`len(high_risk_perms) * 0.2` converts the int and rounds the product,
`1 + ...` rounds the sum, `score * risk_multiplier` converts the int
`score` to float (a rounding) and rounds the product; `int(...)`
truncates.  The loop body (lines 123-127) is `permFoldStep`. -/
def permFoldStep (acc : Nat × List String) (perm : String) : Nat × List String :=
  let perm_score := permScore perm
  (acc.1 + perm_score,
   if 100 ≤ perm_score then acc.2 ++ [perm] else acc.2)

def calculate_permission_score (permissions : List String) : ℤ × List String :=
  let sp := permissions.foldl permFoldStep (0, [])
  let risk_multiplier : ℚ :=
    roundD (1 + roundD ((roundD ((sp.2.length : ℚ))) * fl02))
  let score : ℚ := roundD ((roundD ((sp.1 : ℚ))) * risk_multiplier)
  (pyTrunc score, sp.2)

/-- The character class `[a-zA-Z0-9.-]` of the URL regex (line 138). -/
def isHostChar (c : Char) : Bool :=
  c.isAlpha || c.isDigit || c == '.' || c == '-'

/-- One attempted match of `https?://([a-zA-Z0-9.-]+)[/?]` at the head of
`cs`: on success, the captured host and the total matched length.
The `+` is greedy and the character class excludes `/` and `?`, so the
regex matches here exactly when the maximal host-char run after the
scheme is nonempty and is followed by `/` or `?`. -/
def matchUrlAt (cs : List Char) : Option (String × Nat) :=
  let scheme : Option Nat :=
    if "https://".toList.isPrefixOf cs then some 8
    else if "http://".toList.isPrefixOf cs then some 7
    else none
  match scheme with
  | none => none
  | some n =>
      let rest := cs.drop n
      let host := rest.takeWhile isHostChar
      match rest.drop host.length with
      | [] => none
      | c :: _ =>
          if host ≠ [] && (c == '/' || c == '?') then
            some (⟨host⟩, n + host.length + 1)
          else none

/-- `re.findall` driver: scan left to right, emit each leftmost match's
captured host and resume after the match.  Fuel is the remaining length;
every step consumes at least one character, so the fuel never runs out. -/
def findallUrlsAux : Nat → List Char → List String
  | 0, _ => []
  | _, [] => []
  | fuel + 1, c :: rest =>
      match matchUrlAt (c :: rest) with
      | some (host, k) => host :: findallUrlsAux fuel ((c :: rest).drop k)
      | none => findallUrlsAux fuel rest

/-- `url_pattern.findall(text)` (line 148). -/
def findallUrls (text : String) : List String :=
  findallUrlsAux text.toList.length text.toList

/-- A suspicious-URL finding: the dict of lines 156-160 / 164-168. -/
structure UrlFinding where
  url : String
  reason : String
  score : Nat
deriving DecidableEq, Repr

/-- The per-domain loop body of `analyze_urls`, lines 149-168: skip short
domains, then known-bad, else unknown-with-suspicious-substring. -/
def urlDomainStep (acc2 : List UrlFinding) (domain : String) : List UrlFinding :=
  if domain.length < 5 then acc2
  else if domain ∈ KNOWN_BAD_DOMAINS then
    acc2 ++ [⟨domain, "Known malicious domain", 200⟩]
  else if domain ∉ KNOWN_GOOD_DOMAINS then
    if strHasSub "api" domain || strHasSub "cloud" domain ||
        strHasSub "server" domain then
      acc2 ++ [⟨domain, "Suspicious external domain", 50⟩]
    else acc2
  else acc2

/-- `analyze_urls`, lines 135-174, over the APK's string pool. -/
def analyze_urls (pool : List StrItem) : List UrlFinding :=
  pool.foldl
    (fun acc item =>
      match item with
      | .decodeFail => acc
      | .ok text => (findallUrls text).foldl urlDomainStep acc)
    []

/-- One entry of the pattern catalog: the regex source text as the Python
dict key, the literal text the regex matches, and whether it ends with a
`\b` word-boundary assertion.  Every pattern of `MALICIOUS_PATTERNS` is a
literal (with escaped metacharacters) optionally ending in `\b`. -/
structure MPattern where
  srcText : String
  lit : String
  wordEnd : Bool
deriving DecidableEq, Repr

/-- `MALICIOUS_PATTERNS`, lines 40-55, in dict insertion order. -/
def MALICIOUS_PATTERNS : List (MPattern × Nat) := [
  (⟨"exec\\(", "exec(", false⟩, 200),
  (⟨"runtime\\.exec", "runtime.exec", false⟩, 200),
  (⟨"getRuntime\\(\\)\\.exec", "getRuntime().exec", false⟩, 200),
  (⟨"su\\b", "su", true⟩, 150),
  (⟨"superuser", "superuser", false⟩, 150),
  (⟨"root\\b", "root", true⟩, 150),
  (⟨"cryptography", "cryptography", false⟩, 50),
  (⟨"encrypt", "encrypt", false⟩, 50),
  (⟨"decrypt", "decrypt", false⟩, 50),
  (⟨"base64", "base64", false⟩, 30),
  (⟨"getDeviceId", "getDeviceId", false⟩, 100),
  (⟨"getSubscriberId", "getSubscriberId", false⟩, 100),
  (⟨"getSimSerialNumber", "getSimSerialNumber", false⟩, 100),
  (⟨"getLine1Number", "getLine1Number", false⟩, 100)]

/-- Regex word characters `[a-zA-Z0-9_]`. -/
def isWordChar (c : Char) : Bool := c.isAlpha || c.isDigit || c == '_'

/-- The pattern matches at the head of `cs` (with its trailing `\b`
satisfied when present). -/
def matchHere (lit : List Char) (wordEnd : Bool) (cs : List Char) : Bool :=
  lit.isPrefixOf cs &&
    (!wordEnd ||
      (match cs.drop lit.length with
       | [] => true
       | d :: _ => !isWordChar d))

/-- The pattern matches at some position of `cs` (`re.search`). -/
def searchFrom (lit : List Char) (wordEnd : Bool) : List Char → Bool
  | [] => matchHere lit wordEnd []
  | c :: rest => matchHere lit wordEnd (c :: rest) || searchFrom lit wordEnd rest

/-- `re.search(pattern, text, re.IGNORECASE)` for a catalog pattern:
ASCII-case-insensitive search. -/
def reSearchCI (p : MPattern) (text : String) : Bool :=
  searchFrom (p.lit.toList.map Char.toLower) p.wordEnd
    (text.toList.map Char.toLower)

/-- A suspicious-pattern finding: the dict of lines 194-198. -/
structure PatFinding where
  pattern : String
  score : Nat
  location : String
deriving DecidableEq, Repr

/-- The per-pattern loop body of `analyze_code_patterns`, lines 192-198:
append one finding per matching catalog pattern. -/
def patCatalogStep (text : String) (acc2 : List PatFinding)
    (ps : MPattern × Nat) : List PatFinding :=
  if reSearchCI ps.1 text then
    acc2 ++ [⟨ps.1.srcText, ps.2, "APK strings"⟩]
  else acc2

/-- `analyze_code_patterns`, lines 176-205.  Input: the string pool of the
freshly parsed APK, or the exception raised by `APK(apk_path)` /
`get_strings()` (caught at line 202, yielding `[]`). -/
def analyze_code_patterns (apkStrings : PyResult (List StrItem)) :
    List PatFinding :=
  match apkStrings with
  | .exn _ => []
  | .ok pool =>
      pool.foldl
        (fun acc item =>
          match item with
          | .decodeFail => acc
          | .ok text => MALICIOUS_PATTERNS.foldl (patCatalogStep text) acc)
        []

/-- `calculate_certificate_risk`, lines 207-223.  The collaborator call
`apk.get_certificates()` is the input: a certificate list, or an
exception (caught at line 221). -/
def calculate_certificate_risk (certificates : PyResult (List Unit)) :
    Nat × String :=
  match certificates with
  | .ok certs =>
      if certs ≠ [] then (0, "Certificate found (basic check)")
      else (100, "No certificate found")
  | .exn e => (75, "Certificate analysis failed: " ++ e)

/-! ### Risk aggregator: `analyze_apk` (lines 234-319) -/

/-- Lines 273-278: `total_score = max(0, total_score * 0.3)` when the
package is allowlisted (int-to-float conversion, float multiply), else
the total unchanged. -/
def applyDiscount (total : ℤ) (isSafe : Bool) : ℚ :=
  if isSafe then max 0 (roundD ((roundD ((total : ℚ))) * fl03))
  else (total : ℚ)

/-- Lines 280-288: the threshold ladder on the (possibly discounted)
total. -/
def riskLevel (total : ℚ) : String :=
  if 500 < total then "Dangerous"
  else if 200 < total then "Potentially Risky"
  else if 50 < total then "Moderate Risk"
  else "Likely Safe"

/-- Collaborator invocations of one `analyze_apk` run, in program order;
used to state that the missing-identifier short circuit performs no
hashing, allowlist lookup or scoring. -/
inductive Effect where
  | loadApk
  | hashFile
  | loadSafeApps
  | scorePermissions
  | scanUrls
  | scanPatterns
  | certCheck
deriving DecidableEq, Repr

/-- What the parsed APK object yields (lines 243-247 collaborator calls):
`None` results are modelled as `none`. -/
structure ApkFacts where
  permissions : List String
  appName : Option String
  packageName : Option String
  versionName : Option String
  versionCode : Option String
  strings : List StrItem
  certificates : PyResult (List Unit)
deriving DecidableEq, Repr

/-- The environment of one `analyze_apk(apk_path)` call: the path, the
filesystem/parse outcomes, the SHA-256 digest of the file (hashing itself
is opaque here), the string pool seen by the second APK parse inside
`analyze_code_patterns`, the allowlist-cache state, and the clock. -/
structure AnalyzeInput where
  apkPath : String
  fileExists : Bool
  apkLoad : PyResult ApkFacts
  apkHash : String
  codeStrings : PyResult (List StrItem)
  safeState : SafeAppsState
  now : Nat
  attempt : LoadAttempt
  timestamp : String
deriving DecidableEq, Repr

/-- The result dict of lines 291-311. -/
structure Report where
  app_name : String
  package : String
  version : String
  apk_hash : String
  permissions : List (String × String)
  permission_score : ℤ
  url_score : ℕ
  code_analysis_score : ℕ
  certificate_score : ℕ
  certificate_notes : String
  total_score : ℤ
  overall_risk : String
  risk_note : String
  high_risk_permissions : List String
  suspicious_urls : List UrlFinding
  suspicious_code_patterns : List PatFinding
  is_known_safe_app : Bool
  analysis_timestamp : String
  false_positive_reported : Bool
deriving DecidableEq, Repr, Inhabited

/-- The success-branch body of `analyze_apk`, lines 252-313: the
collaborator calls and the assembly of the result dict. -/
def mkReport (input : AnalyzeInput) (facts : ApkFacts) : Report :=
  let permissions := facts.permissions
  let app_name := pyOr facts.appName "Unknown"
  let package_name := pyOr facts.packageName "Unknown"
  let version_name := pyOr facts.versionName "Unknown"
  let version_code := pyOr facts.versionCode "Unknown"
  let apk_hash := input.apkHash
  let safe_apps :=
    (load_safe_apps input.safeState input.now input.attempt).1
  let normalized_package := pyStrip (pyLower package_name)
  let is_known_safe_app : Bool := safe_apps.contains normalized_package
  let ps := calculate_permission_score permissions
  let suspicious_urls := analyze_urls facts.strings
  let url_score := (suspicious_urls.map UrlFinding.score).sum
  let code_patterns := analyze_code_patterns input.codeStrings
  let code_score := (code_patterns.map PatFinding.score).sum
  let cr := calculate_certificate_risk facts.certificates
  let total_score : ℤ := ps.1 + url_score + code_score + cr.1
  let discounted : ℚ := applyDiscount total_score is_known_safe_app
  let risk_note :=
    if is_known_safe_app then "Known safe app (score reduced)"
    else "Unknown app"
  let risk_level := riskLevel discounted
  { app_name := app_name
    package := package_name
    version := version_name ++ " (" ++ version_code ++ ")"
    apk_hash := apk_hash
    permissions := permissions.map (fun p => (p, get_permission_risk p))
    permission_score := ps.1
    url_score := url_score
    code_analysis_score := code_score
    certificate_score := cr.1
    certificate_notes := cr.2
    total_score := pyTrunc discounted
    overall_risk := risk_level
    risk_note := risk_note
    high_risk_permissions := ps.2
    suspicious_urls := suspicious_urls
    suspicious_code_patterns := code_patterns
    is_known_safe_app := is_known_safe_app
    analysis_timestamp := input.timestamp
    false_positive_reported := false }

/-- The collaborator-invocation trace of a completed run, in program
order (lines 242, 253, 256, 261, 262, 265, 268). -/
def fullTrace : List Effect :=
  [.loadApk, .hashFile, .loadSafeApps, .scorePermissions,
   .scanUrls, .scanPatterns, .certCheck]

/-- `analyze_apk`, lines 234-319: the structured error or complete report,
plus the trace of collaborator invocations in program order. -/
def analyze_apk (input : AnalyzeInput) : Except String Report × List Effect :=
  if input.fileExists = false then
    (.error ("APK file not found: " ++ input.apkPath), [])
  else
    match input.apkLoad with
    | .exn e => (.error e, [.loadApk])
    | .ok facts =>
        if pyOr facts.packageName "Unknown" = "Unknown" then
          (.error "Could not extract package name from APK", [.loadApk])
        else
          (.ok (mkReport input facts), fullTrace)

/-! ### Claim-side (specification) formulations, for refinement claims -/

/-- Spec: sum of the static severity score of each permission. -/
def rawPermissionSum (permissions : List String) : ℕ :=
  (permissions.map permScore).sum

/-- Spec: every permission whose individual score ≥ 100, in input order. -/
def highRiskList (permissions : List String) : List String :=
  permissions.filter (fun p => 100 ≤ permScore p)

/-- The claim's permission-score formula `int(raw_sum * (1 + 0.2 * k))`
read in exact arithmetic. -/
def exactPermissionTotal (permissions : List String) : ℤ :=
  pyTrunc ((rawPermissionSum permissions : ℚ) *
    (1 + ((highRiskList permissions).length : ℚ) * (1/5)))

/-- Spec classification of one extracted domain, first match wins:
known-bad → score 200; else not known-good and containing one of
"api"/"cloud"/"server" → score 50; else no finding. -/
def classifyDomainSpec (domain : String) : Option UrlFinding :=
  if domain ∈ KNOWN_BAD_DOMAINS then
    some ⟨domain, "Known malicious domain", 200⟩
  else if domain ∉ KNOWN_GOOD_DOMAINS ∧
      (strHasSub "api" domain || strHasSub "cloud" domain ||
        strHasSub "server" domain) then
    some ⟨domain, "Suspicious external domain", 50⟩
  else none

/-- Spec domain scan of one string: extract hosts, discard those shorter
than 5 characters, classify the rest. -/
def domainFindingsSpec (text : String) : List UrlFinding :=
  (findallUrls text).filterMap
    (fun d => if d.length < 5 then none else classifyDomainSpec d)

/-- Spec domain scan of a pool: per-string findings concatenated,
decode failures skipped. -/
def urlScanSpec (pool : List StrItem) : List UrlFinding :=
  pool.flatMap (fun item =>
    match item with
    | .decodeFail => []
    | .ok text => domainFindingsSpec text)

/-- Spec pattern scan of one string: one finding per catalog pattern that
matches, in catalog order. -/
def patternFindingsSpec (text : String) : List PatFinding :=
  (MALICIOUS_PATTERNS.filter (fun ps => reSearchCI ps.1 text)).map
    (fun ps => ⟨ps.1.srcText, ps.2, "APK strings"⟩)

/-- Spec pattern scan of a pool: per-string findings concatenated,
decode failures skipped. -/
def patternScanSpec (pool : List StrItem) : List PatFinding :=
  pool.flatMap (fun item =>
    match item with
    | .decodeFail => []
    | .ok text => patternFindingsSpec text)

/-- The pre-discount total reconstructed from a report's four named
sub-scores (the spec's `total = permission + domain + pattern +
certificate`). -/
def reportPreTotal (r : Report) : ℤ :=
  r.permission_score + r.url_score + r.code_analysis_score +
    r.certificate_score

/-! ### Concrete scenario fixtures -/

/-- Package facts of the §8 discount scenario: an allowlisted package
whose pre-discount total is exactly 600 (three known-bad domain hits at
200 each; no permissions; certificate present). -/
def facts600 : ApkFacts := {
  permissions := []
  appName := some "Good App"
  packageName := some "com.good.app"
  versionName := some "1.0"
  versionCode := some "7"
  strings := [.ok "http://malicious-domain.com/a",
              .ok "http://malicious-domain.com/b",
              .ok "http://malicious-domain.com/c"]
  certificates := .ok [()] }

/-- Full environment of the §8 discount scenario: the allowlist source
yields `com.good.app`, the cache is cold, both APK parses succeed. -/
def input600 : AnalyzeInput := {
  apkPath := "good.apk"
  fileExists := true
  apkLoad := .ok facts600
  apkHash := "ab12"
  codeStrings := .ok facts600.strings
  safeState := ⟨none, none⟩
  now := 0
  attempt := .success [some "com.good.app"]
  timestamp := "2026-10-12T00:00:00" }

/-- The report produced on `input600` (the success branch is taken, so
this projection is total in effect). -/
def report600 : Report :=
  match (analyze_apk input600).1 with
  | .ok r => r
  | .error _ => default

/-- An APK whose package identifier cannot be determined
(`get_package()` returns `None`). -/
def factsNoPkg : ApkFacts := {
  permissions := ["android.permission.READ_SMS"]
  appName := some "Mystery"
  packageName := none
  versionName := some "1.0"
  versionCode := some "1"
  strings := [.ok "http://malicious-domain.com/a"]
  certificates := .ok [()] }

/-- Environment for the missing-identifier short circuit. -/
def inputNoPkg : AnalyzeInput := {
  apkPath := "mystery.apk"
  fileExists := true
  apkLoad := .ok factsNoPkg
  apkHash := "cd34"
  codeStrings := .ok factsNoPkg.strings
  safeState := ⟨none, none⟩
  now := 0
  attempt := .success [some "com.good.app"]
  timestamp := "2026-10-12T00:00:01" }

/-- An APK whose certificate extraction raises. -/
def factsCertFail : ApkFacts := {
  permissions := []
  appName := some "Broken Cert"
  packageName := some "com.broken.cert"
  versionName := some "2.0"
  versionCode := some "3"
  strings := []
  certificates := .exn "bad signing block" }

/-- Environment for the certificate-extraction-failure run. -/
def inputCertFail : AnalyzeInput := {
  apkPath := "broken.apk"
  fileExists := true
  apkLoad := .ok factsCertFail
  apkHash := "ef56"
  codeStrings := .ok ([] : List StrItem)
  safeState := ⟨none, none⟩
  now := 0
  attempt := .fileMissing
  timestamp := "2026-10-12T00:00:02" }

/-! ## Theorems -/

/-! ### Support: binary logarithm and rounding -/

theorem binLogAux_spec (fuel : Nat) : ∀ n, 1 ≤ n → n ≤ fuel →
    2 ^ binLogAux fuel n ≤ n ∧ n < 2 ^ (binLogAux fuel n + 1) := by
  induction fuel with
  | zero => intro n h1 h2; omega
  | succ fuel ih =>
    intro n h1 h2
    by_cases h : 2 ≤ n
    · have hm1 : 1 ≤ n / 2 := by omega
      have hm2 : n / 2 ≤ fuel := by omega
      have ihm := ih (n / 2) hm1 hm2
      simp only [binLogAux, if_pos h]
      constructor
      · calc 2 ^ (binLogAux fuel (n / 2) + 1)
            = 2 * 2 ^ binLogAux fuel (n / 2) := by ring
        _ ≤ 2 * (n / 2) := by omega
        _ ≤ n := by omega
      · have : n < 2 * 2 ^ (binLogAux fuel (n / 2) + 1) := by omega
        calc n < 2 * 2 ^ (binLogAux fuel (n / 2) + 1) := this
        _ = 2 ^ (binLogAux fuel (n / 2) + 1 + 1) := by ring
    · simp only [binLogAux, if_neg h]
      omega

theorem binLog_spec (n : Nat) (h : 1 ≤ n) :
    2 ^ binLog n ≤ n ∧ n < 2 ^ (binLog n + 1) :=
  binLogAux_spec n n h le_rfl

theorem exp2floor_spec (q : ℚ) (hq : 0 < q) :
    (2:ℚ) ^ exp2floor q ≤ q ∧ q < 2 ^ (exp2floor q + 1) := by
  have hnum : 0 < q.num := Rat.num_pos.mpr hq
  have ha1 : 1 ≤ q.num.natAbs := by
    have := Int.natAbs_pos.mpr hnum.ne'
    omega
  have hb1 : 1 ≤ q.den := q.pos
  obtain ⟨hA1, hA2⟩ := binLog_spec q.num.natAbs ha1
  obtain ⟨hB1, hB2⟩ := binLog_spec q.den hb1
  have haq : ((q.num.natAbs : ℚ)) = (q.num : ℚ) := by
    rw [Int.cast_natAbs]
    exact_mod_cast congrArg (fun z : ℤ => (z : ℚ)) (abs_of_pos hnum)
  have hq_eq : q = (q.num.natAbs : ℚ) / (q.den : ℚ) := by
    rw [haq]; exact (Rat.num_div_den q).symm
  have hbpos : (0:ℚ) < (q.den : ℚ) := by exact_mod_cast hb1
  have hapos : (0:ℚ) < (q.num.natAbs : ℚ) := by exact_mod_cast ha1
  have h2ne : (2:ℚ) ≠ 0 := by norm_num
  set A : ℤ := (binLog q.num.natAbs : ℤ) with hA
  set B : ℤ := (binLog q.den : ℤ) with hB
  have hA1' : (2:ℚ) ^ A ≤ (q.num.natAbs : ℚ) := by
    rw [hA, zpow_natCast]; exact_mod_cast hA1
  have hA2' : (q.num.natAbs : ℚ) < 2 ^ (A + 1) := by
    rw [hA, show ((binLog q.num.natAbs : ℤ) + 1 : ℤ) =
      ((binLog q.num.natAbs + 1 : ℕ) : ℤ) by push_cast; ring, zpow_natCast]
    exact_mod_cast hA2
  have hB1' : (2:ℚ) ^ B ≤ (q.den : ℚ) := by
    rw [hB, zpow_natCast]; exact_mod_cast hB1
  have hB2' : (q.den : ℚ) < 2 ^ (B + 1) := by
    rw [hB, show ((binLog q.den : ℤ) + 1 : ℤ) =
      ((binLog q.den + 1 : ℕ) : ℤ) by push_cast; ring, zpow_natCast]
    exact_mod_cast hB2
  have hupper : q < (2:ℚ) ^ (A - B + 1) := by
    rw [hq_eq, div_lt_iff₀ hbpos]
    calc (q.num.natAbs : ℚ) < 2 ^ (A + 1) := hA2'
    _ = 2 ^ (A - B + 1) * 2 ^ B := by
        rw [← zpow_add₀ h2ne]; ring_nf
    _ ≤ 2 ^ (A - B + 1) * (q.den : ℚ) :=
        mul_le_mul_of_nonneg_left hB1' (le_of_lt (zpow_pos (by norm_num) _))
  have hlower : (2:ℚ) ^ (A - B - 1) < q := by
    rw [hq_eq, lt_div_iff₀ hbpos]
    calc (2:ℚ) ^ (A - B - 1) * (q.den : ℚ)
        < 2 ^ (A - B - 1) * 2 ^ (B + 1) :=
          mul_lt_mul_of_pos_left hB2' (zpow_pos (by norm_num) _)
    _ = 2 ^ A := by rw [← zpow_add₀ h2ne]; ring_nf
    _ ≤ (q.num.natAbs : ℚ) := hA1'
  show (2:ℚ) ^ (if (2:ℚ) ^ (A - B) ≤ q then A - B else A - B - 1) ≤ q ∧
    q < 2 ^ ((if (2:ℚ) ^ (A - B) ≤ q then A - B else A - B - 1) + 1)
  by_cases hcase : (2:ℚ) ^ (A - B) ≤ q
  · rw [if_pos hcase]
    exact ⟨hcase, hupper⟩
  · rw [if_neg hcase]
    constructor
    · exact le_of_lt hlower
    · have : (A - B - 1) + 1 = A - B := by ring
      rw [this]
      exact lt_of_not_le hcase

theorem exp2floor_eq_of (q : ℚ) (e : ℤ) (h1 : (2:ℚ) ^ e ≤ q)
    (h2 : q < 2 ^ (e + 1)) : exp2floor q = e := by
  have hq : 0 < q := lt_of_lt_of_le (zpow_pos (by norm_num) e) h1
  obtain ⟨g1, g2⟩ := exp2floor_spec q hq
  have l1 : exp2floor q < e + 1 :=
    (zpow_lt_zpow_iff_right₀ (by norm_num : (1:ℚ) < 2)).mp (lt_of_le_of_lt g1 h2)
  have l2 : e < exp2floor q + 1 :=
    (zpow_lt_zpow_iff_right₀ (by norm_num : (1:ℚ) < 2)).mp (lt_of_le_of_lt h1 g2)
  omega

theorem roundD_eq_roundPos (q : ℚ) (hq : 0 < q) : roundD q = roundPos q := by
  unfold roundD
  rw [if_neg hq.ne', if_pos hq]

theorem roundD_zero : roundD 0 = 0 := by
  unfold roundD
  rw [if_pos rfl]

theorem roundMant_le (n : ℤ) (f : ℚ) : roundMant n f ≤ n + 1 := by
  unfold roundMant
  split_ifs <;> omega

theorem roundMant_ge (n : ℤ) (f : ℚ) : n ≤ roundMant n f := by
  unfold roundMant
  split_ifs <;> omega

theorem roundD_nonneg (q : ℚ) (hq : 0 ≤ q) : 0 ≤ roundD q := by
  rcases eq_or_lt_of_le hq with h | h
  · rw [← h, roundD_zero]
  · rw [roundD_eq_roundPos q h]
    unfold roundPos
    have hs : (0:ℚ) < 2 ^ (exp2floor q - 52) := zpow_pos (by norm_num) _
    have hm : (0:ℚ) ≤ q / 2 ^ (exp2floor q - 52) := le_of_lt (div_pos h hs)
    have hn : (0:ℤ) ≤ ⌊q / 2 ^ (exp2floor q - 52)⌋ := Int.floor_nonneg.mpr hm
    have : (0:ℤ) ≤ roundMant ⌊q / 2 ^ (exp2floor q - 52)⌋
        (q / 2 ^ (exp2floor q - 52) - (⌊q / 2 ^ (exp2floor q - 52)⌋ : ℚ)) :=
      le_trans hn (roundMant_ge _ _)
    exact mul_nonneg (by exact_mod_cast this) (le_of_lt hs)

theorem roundD_le_mul (q : ℚ) (hq : 0 < q) :
    roundD q ≤ q * (1 + 1/4503599627370496) := by
  obtain ⟨g1, _⟩ := exp2floor_spec q hq
  rw [roundD_eq_roundPos q hq]
  unfold roundPos
  have hs : (0:ℚ) < 2 ^ (exp2floor q - 52) := zpow_pos (by norm_num) _
  have hfl : (⌊q / 2 ^ (exp2floor q - 52)⌋ : ℚ) ≤ q / 2 ^ (exp2floor q - 52) :=
    Int.floor_le _
  have hcast : ((roundMant ⌊q / 2 ^ (exp2floor q - 52)⌋
      (q / 2 ^ (exp2floor q - 52) - (⌊q / 2 ^ (exp2floor q - 52)⌋ : ℚ)) : ℤ) : ℚ) ≤
      q / 2 ^ (exp2floor q - 52) + 1 := by
    have h1 : (roundMant ⌊q / 2 ^ (exp2floor q - 52)⌋
        (q / 2 ^ (exp2floor q - 52) - (⌊q / 2 ^ (exp2floor q - 52)⌋ : ℚ)) : ℤ) ≤
        ⌊q / 2 ^ (exp2floor q - 52)⌋ + 1 := roundMant_le _ _
    calc ((roundMant ⌊q / 2 ^ (exp2floor q - 52)⌋
        (q / 2 ^ (exp2floor q - 52) - (⌊q / 2 ^ (exp2floor q - 52)⌋ : ℚ)) : ℤ) : ℚ) ≤
        ((⌊q / 2 ^ (exp2floor q - 52)⌋ + 1 : ℤ) : ℚ) := by exact_mod_cast h1
    _ = (⌊q / 2 ^ (exp2floor q - 52)⌋ : ℚ) + 1 := by push_cast; ring
    _ ≤ q / 2 ^ (exp2floor q - 52) + 1 := by linarith
  have step : (roundMant ⌊q / 2 ^ (exp2floor q - 52)⌋
      (q / 2 ^ (exp2floor q - 52) - (⌊q / 2 ^ (exp2floor q - 52)⌋ : ℚ)) : ℚ) *
      2 ^ (exp2floor q - 52) ≤ q + 2 ^ (exp2floor q - 52) := by
    calc (roundMant ⌊q / 2 ^ (exp2floor q - 52)⌋
        (q / 2 ^ (exp2floor q - 52) - (⌊q / 2 ^ (exp2floor q - 52)⌋ : ℚ)) : ℚ) *
        2 ^ (exp2floor q - 52) ≤
        (q / 2 ^ (exp2floor q - 52) + 1) * 2 ^ (exp2floor q - 52) :=
          mul_le_mul_of_nonneg_right hcast (le_of_lt hs)
    _ = q + 2 ^ (exp2floor q - 52) := by
        field_simp
  have stail : (2:ℚ) ^ (exp2floor q - 52) ≤ q / 4503599627370496 := by
    have : (2:ℚ) ^ (exp2floor q - 52) = 2 ^ exp2floor q / 2 ^ (52:ℤ) := by
      rw [← zpow_sub₀ (by norm_num : (2:ℚ) ≠ 0)]
    rw [this]
    have h52 : ((2:ℚ)) ^ (52:ℤ) = 4503599627370496 := by norm_num
    rw [h52]
    gcongr
  calc roundPos q ≤ q + 2 ^ (exp2floor q - 52) := step
  _ ≤ q + q / 4503599627370496 := by linarith
  _ = q * (1 + 1/4503599627370496) := by ring

theorem roundD_eval_low (q : ℚ) (e n : ℤ) (h1 : (2:ℚ) ^ e ≤ q)
    (h2 : q < 2 ^ (e + 1)) (hn : ⌊q / 2 ^ (e - 52)⌋ = n)
    (hf : q / 2 ^ (e - 52) - (n : ℚ) < 1/2) :
    roundD q = (n : ℚ) * 2 ^ (e - 52) := by
  have hq : 0 < q := lt_of_lt_of_le (zpow_pos (by norm_num) e) h1
  have he := exp2floor_eq_of q e h1 h2
  rw [roundD_eq_roundPos q hq]
  unfold roundPos
  rw [he, hn]
  unfold roundMant
  rw [if_neg (by linarith), if_pos hf]

theorem roundD_eval_high (q : ℚ) (e n : ℤ) (h1 : (2:ℚ) ^ e ≤ q)
    (h2 : q < 2 ^ (e + 1)) (hn : ⌊q / 2 ^ (e - 52)⌋ = n)
    (hf : 1/2 < q / 2 ^ (e - 52) - (n : ℚ)) :
    roundD q = ((n + 1 : ℤ) : ℚ) * 2 ^ (e - 52) := by
  have hq : 0 < q := lt_of_lt_of_le (zpow_pos (by norm_num) e) h1
  have he := exp2floor_eq_of q e h1 h2
  rw [roundD_eq_roundPos q hq]
  unfold roundPos
  rw [he, hn]
  unfold roundMant
  rw [if_pos hf]

theorem roundD_eval_tie_even (q : ℚ) (e n : ℤ) (h1 : (2:ℚ) ^ e ≤ q)
    (h2 : q < 2 ^ (e + 1)) (hn : ⌊q / 2 ^ (e - 52)⌋ = n)
    (hf : q / 2 ^ (e - 52) - (n : ℚ) = 1/2) (hev : n % 2 = 0) :
    roundD q = (n : ℚ) * 2 ^ (e - 52) := by
  have hq : 0 < q := lt_of_lt_of_le (zpow_pos (by norm_num) e) h1
  have he := exp2floor_eq_of q e h1 h2
  rw [roundD_eq_roundPos q hq]
  unfold roundPos
  rw [he, hn]
  unfold roundMant
  rw [if_neg (by simp [hf]), if_neg (by simp [hf]), if_pos hev]

theorem fl02_eq : fl02 = 3602879701896397 / 2 ^ 54 := by
  have h := roundD_eval_high (1/5) (-3) 7205759403792793
    (by norm_num) (by norm_num) (by norm_num) (by norm_num)
  rw [fl02, h]
  norm_num

theorem fl03_eq : fl03 = 5404319552844595 / 2 ^ 54 := by
  have h := roundD_eval_low (3/10) (-2) 5404319552844595
    (by norm_num) (by norm_num) (by norm_num) (by norm_num)
  rw [fl03, h]
  norm_num

theorem roundD_two : roundD ((2:ℚ)) = 2 := by
  have h := roundD_eval_low 2 1 4503599627370496
    (by norm_num) (by norm_num) (by norm_num) (by norm_num)
  rw [h]
  norm_num

/-- The binary64 value of `1 + 2 * 0.2` (the risk multiplier for two
high-risk permissions): slightly below the exact 1.4. -/
theorem riskMult2_eq :
    roundD (1 + roundD (roundD ((2:ℚ)) * fl02)) = 3152519739159347 / 2 ^ 51 := by
  rw [roundD_two, fl02_eq]
  have h1 : roundD (2 * (3602879701896397 / 2 ^ 54)) =
      3602879701896397 / 2 ^ 53 := by
    have h := roundD_eval_low (2 * (3602879701896397 / 2 ^ 54)) (-2)
      7205759403792794 (by norm_num) (by norm_num) (by norm_num) (by norm_num)
    rw [h]
    norm_num
  rw [h1]
  have h2 := roundD_eval_tie_even (1 + 3602879701896397 / 2 ^ 53) 0
    6305039478318694 (by norm_num) (by norm_num) (by norm_num) (by norm_num)
    (by norm_num)
  rw [h2]
  norm_num

theorem roundD_400 : roundD ((400:ℚ)) = 400 := by
  have h := roundD_eval_low 400 8 7036874417766400
    (by norm_num) (by norm_num) (by norm_num) (by norm_num)
  rw [h]
  norm_num

theorem roundD_325 : roundD ((325:ℚ)) = 325 := by
  have h := roundD_eval_low 325 8 5717460464435200
    (by norm_num) (by norm_num) (by norm_num) (by norm_num)
  rw [h]
  norm_num

theorem roundD_600 : roundD ((600:ℚ)) = 600 := by
  have h := roundD_eval_low 600 9 5277655813324800
    (by norm_num) (by norm_num) (by norm_num) (by norm_num)
  rw [h]
  norm_num

/-- `400 * 1.4` in binary64 is exactly 560 (the rounding error of the
multiplier is absorbed). -/
theorem perm560 :
    roundD (roundD ((400:ℚ)) * roundD (1 + roundD (roundD ((2:ℚ)) * fl02))) =
      560 := by
  rw [roundD_400, riskMult2_eq]
  have h := roundD_eval_high (400 * (3152519739159347 / 2 ^ 51)) 9
    4925812092436479 (by norm_num) (by norm_num) (by norm_num) (by norm_num)
  rw [h]
  norm_num

/-- `325 * 1.4` in binary64 falls just below 455. -/
theorem perm454 :
    roundD (roundD ((325:ℚ)) * roundD (1 + roundD (roundD ((2:ℚ)) * fl02))) =
      8004444650209279 / 2 ^ 44 := by
  rw [roundD_325, riskMult2_eq]
  have h := roundD_eval_low (325 * (3152519739159347 / 2 ^ 51)) 8
    8004444650209279 (by norm_num) (by norm_num) (by norm_num) (by norm_num)
  rw [h]
  norm_num

/-- `600 * 0.3` in binary64 is exactly 180. -/
theorem disc180 : roundD (roundD ((600:ℚ)) * fl03) = 180 := by
  rw [roundD_600, fl03_eq]
  have h := roundD_eval_high (600 * (5404319552844595 / 2 ^ 54)) 7
    6333186975989759 (by norm_num) (by norm_num) (by norm_num) (by norm_num)
  rw [h]
  norm_num

/-! ### Support: loop-to-comprehension refinements -/

theorem foldl_append_free {α β : Type} (f : List β → α → List β)
    (g : α → List β) (hf : ∀ acc x, f acc x = acc ++ g x) :
    ∀ (l : List α) (acc : List β), l.foldl f acc = acc ++ l.flatMap g := by
  intro l
  induction l with
  | nil => intro acc; simp
  | cons x t ih =>
      intro acc
      rw [List.foldl_cons, hf, ih, List.flatMap_cons, List.append_assoc]

theorem filterMap_eq_flatMap {α β : Type} (f : α → Option β) (l : List α) :
    l.filterMap f = l.flatMap (fun a => (f a).toList) := by
  induction l with
  | nil => rfl
  | cons x t ih =>
      rw [List.filterMap_cons, List.flatMap_cons]
      cases hx : f x <;> simp [hx, ih]

theorem filter_map_eq_flatMap {α β : Type} (p : α → Bool) (f : α → β)
    (l : List α) :
    (l.filter p).map f = l.flatMap (fun a => if p a then [f a] else []) := by
  induction l with
  | nil => rfl
  | cons x t ih =>
      rw [List.filter_cons, List.flatMap_cons]
      by_cases hx : p x = true
      · simp only [hx, if_pos]
        rw [List.map_cons, ih]
        rfl
      · simp only [hx]
        simp only [Bool.false_eq_true, if_false, ih]
        rfl

theorem urlDomainStep_eq (acc : List UrlFinding) (d : String) :
    urlDomainStep acc d =
      acc ++ (if d.length < 5 then none else classifyDomainSpec d).toList := by
  unfold urlDomainStep classifyDomainSpec
  by_cases h5 : d.length < 5
  · simp [h5]
  · rw [if_neg h5, if_neg h5]
    by_cases hbad : d ∈ KNOWN_BAD_DOMAINS
    · simp [hbad]
    · rw [if_neg hbad, if_neg hbad]
      by_cases hgood : d ∈ KNOWN_GOOD_DOMAINS
      · have : ¬ d ∉ KNOWN_GOOD_DOMAINS := by simp [hgood]
        simp [hgood]
      · by_cases hsub : (strHasSub "api" d || strHasSub "cloud" d ||
            strHasSub "server" d) = true
        · simp [hgood, hsub]
        · simp [hgood, hsub]

theorem analyze_urls_eq (pool : List StrItem) :
    analyze_urls pool = urlScanSpec pool := by
  unfold analyze_urls urlScanSpec
  have hstep : ∀ (acc : List UrlFinding) (item : StrItem),
      (match item with
        | .decodeFail => acc
        | .ok text => (findallUrls text).foldl urlDomainStep acc) =
      acc ++ (match item with
        | .decodeFail => []
        | .ok text => domainFindingsSpec text) := by
    intro acc item
    cases item with
    | decodeFail => simp
    | ok t =>
        show (findallUrls t).foldl urlDomainStep acc = acc ++ domainFindingsSpec t
        rw [foldl_append_free urlDomainStep
          (fun d => (if d.length < 5 then none else classifyDomainSpec d).toList)
          urlDomainStep_eq]
        unfold domainFindingsSpec
        rw [filterMap_eq_flatMap]
  rw [foldl_append_free _ _ hstep pool []]
  simp

theorem patCatalogStep_eq (text : String) (acc : List PatFinding)
    (ps : MPattern × Nat) :
    patCatalogStep text acc ps =
      acc ++ (if reSearchCI ps.1 text then
        [⟨ps.1.srcText, ps.2, "APK strings"⟩] else []) := by
  unfold patCatalogStep
  by_cases h : reSearchCI ps.1 text = true
  · simp [h]
  · simp [h]

theorem analyze_code_patterns_eq (pool : List StrItem) :
    analyze_code_patterns (.ok pool) = patternScanSpec pool := by
  have hred : analyze_code_patterns (.ok pool) =
      pool.foldl
        (fun acc item =>
          match item with
          | .decodeFail => acc
          | .ok text => MALICIOUS_PATTERNS.foldl (patCatalogStep text) acc)
        [] := rfl
  rw [hred]
  unfold patternScanSpec
  have hstep : ∀ (acc : List PatFinding) (item : StrItem),
      (match item with
        | .decodeFail => acc
        | .ok text => MALICIOUS_PATTERNS.foldl (patCatalogStep text) acc) =
      acc ++ (match item with
        | .decodeFail => []
        | .ok text => patternFindingsSpec text) := by
    intro acc item
    cases item with
    | decodeFail => simp
    | ok t =>
        show MALICIOUS_PATTERNS.foldl (patCatalogStep t) acc =
          acc ++ patternFindingsSpec t
        rw [foldl_append_free (patCatalogStep t)
          (fun ps => if reSearchCI ps.1 t then
            [⟨ps.1.srcText, ps.2, "APK strings"⟩] else [])
          (patCatalogStep_eq t)]
        unfold patternFindingsSpec
        rw [filter_map_eq_flatMap]
  rw [foldl_append_free _ _ hstep pool []]
  simp

theorem permFold_eq : ∀ (l : List String) (s0 : Nat) (h0 : List String),
    l.foldl permFoldStep (s0, h0) =
      (s0 + rawPermissionSum l, h0 ++ highRiskList l) := by
  intro l
  induction l with
  | nil =>
      intro s0 h0
      simp [rawPermissionSum, highRiskList]
  | cons x t ih =>
      intro s0 h0
      rw [List.foldl_cons]
      show t.foldl permFoldStep
        (s0 + permScore x,
         if 100 ≤ permScore x then h0 ++ [x] else h0) = _
      rw [ih]
      unfold rawPermissionSum highRiskList
      by_cases h : 100 ≤ permScore x
      · rw [if_pos h]
        simp only [List.map_cons, List.sum_cons, List.filter_cons,
          decide_eq_true h, if_pos, Prod.mk.injEq]
        exact ⟨by omega, by simp⟩
      · rw [if_neg h]
        simp only [List.map_cons, List.sum_cons, List.filter_cons]
        rw [decide_eq_false h]
        simp only [Bool.false_eq_true, if_false, Prod.mk.injEq]
        exact ⟨by omega, trivial⟩

theorem calculate_permission_score_eq (l : List String) :
    calculate_permission_score l =
      (pyTrunc (roundD (roundD ((rawPermissionSum l : ℚ)) *
        roundD (1 + roundD (roundD (((highRiskList l).length : ℚ)) * fl02)))),
       highRiskList l) := by
  unfold calculate_permission_score
  rw [permFold_eq]
  simp

/-! ### Support: aggregator structure -/

theorem analyze_apk_ok (input : AnalyzeInput) (facts : ApkFacts)
    (hfe : input.fileExists = true) (hload : input.apkLoad = .ok facts)
    (hpkg : pyOr facts.packageName "Unknown" ≠ "Unknown") :
    analyze_apk input = (.ok (mkReport input facts), fullTrace) := by
  unfold analyze_apk
  rw [hfe, hload]
  simp only [Bool.true_eq_false, if_false]
  rw [if_neg hpkg]

theorem analyze_apk_ok_inv (input : AnalyzeInput) (r : Report)
    (h : (analyze_apk input).1 = .ok r) :
    ∃ facts, input.apkLoad = .ok facts ∧ r = mkReport input facts := by
  unfold analyze_apk at h
  by_cases hfe : input.fileExists = false
  · rw [if_pos hfe] at h
    exact absurd h (by simp)
  · rw [if_neg hfe] at h
    cases hload : input.apkLoad with
    | exn e =>
        rw [hload] at h
        exact absurd h (by simp)
    | ok facts =>
        rw [hload] at h
        dsimp only at h
        by_cases hpkg : pyOr facts.packageName "Unknown" = "Unknown"
        · rw [if_pos hpkg] at h
          exact absurd h (by simp)
        · rw [if_neg hpkg] at h
          simp only [Except.ok.injEq] at h
          exact ⟨facts, rfl, h.symm⟩

theorem report600_eq : report600 = mkReport input600 facts600 := by
  unfold report600
  rw [analyze_apk_ok input600 facts600 rfl rfl (by decide)]

theorem pyTrunc_eval (q : ℚ) (n : ℤ) (h0 : 0 ≤ q) (hfl : ⌊q⌋ = n) :
    pyTrunc q = n := by
  unfold pyTrunc
  rw [if_pos h0, hfl]

theorem riskLevel_spec (t : ℚ) :
    (500 < t → riskLevel t = "Dangerous") ∧
    (200 < t ∧ t ≤ 500 → riskLevel t = "Potentially Risky") ∧
    (50 < t ∧ t ≤ 200 → riskLevel t = "Moderate Risk") ∧
    (t ≤ 50 → riskLevel t = "Likely Safe") := by
  unfold riskLevel
  refine ⟨?_, ?_, ?_, ?_⟩ <;> intro h
  · rw [if_pos h]
  · rw [if_neg (by linarith [h.2]), if_pos h.1]
  · rw [if_neg (by linarith [h.2]), if_neg (by linarith [h.2]), if_pos h.1]
  · rw [if_neg (by linarith), if_neg (by linarith), if_neg (by linarith)]

/-! ### C1 -/

/-- C1 counterexample: with a cached non-empty set (loaded at time 0) and
a stale cache at time 300, a failing refresh (missing file or raising
loader) makes `load_safe_apps` return the empty set — not the previously
cached set, which the claim asserts. -/
theorem C1_counterexample :
    (load_safe_apps ⟨some ["com.whatsapp"], some 0⟩ 300 .fileMissing).1 = [] ∧
    (load_safe_apps ⟨some ["com.whatsapp"], some 0⟩ 300 .fileMissing).1 ≠
      ["com.whatsapp"] ∧
    "com.whatsapp" ∉
      (load_safe_apps ⟨some ["com.whatsapp"], some 0⟩ 300 .fileMissing).1 ∧
    (load_safe_apps ⟨some ["com.whatsapp"], some 0⟩ 300
      (.raises "parse error")).1 = [] := by
  decide

/-- C1 amended: whenever the cache is invalid (so a refresh is attempted)
and the refresh fails — the safe-apps file is missing, unreadable or
malformed — `load_safe_apps` returns the empty set, leaving the cached
set and timestamp unchanged in the module state; it does not return the
previously cached set. -/
theorem C1_amended_refresh_failure (st : SafeAppsState) (now : Nat)
    (att : LoadAttempt) (hstale : cacheValid st now = false)
    (hfail : att = .fileMissing ∨ ∃ m, att = .raises m) :
    load_safe_apps st now att = ([], st) := by
  unfold load_safe_apps
  rw [hstale]
  simp only [Bool.false_eq_true, if_false]
  rcases hfail with h | ⟨m, h⟩ <;> subst h <;> rfl

/-- Witness for C1 amended at the concrete counterexample state. -/
theorem C1_amended_refresh_failure_witness :
    load_safe_apps ⟨some ["com.whatsapp"], some 0⟩ 300 .fileMissing =
      ([], ⟨some ["com.whatsapp"], some 0⟩) :=
  C1_amended_refresh_failure _ _ _ (by decide) (Or.inl rfl)

/-! ### C2 -/

/-- C2 counterexample: at pre-discount total T = 0 with the package
allowlisted, the post-discount total equals 0 = T, so the discount is not
strictly reducing as the claim asserts for every non-negative T. -/
theorem C2_counterexample :
    applyDiscount 0 true = ((0:ℤ) : ℚ) ∧
    ¬ applyDiscount 0 true < ((0:ℤ) : ℚ) := by
  have h : applyDiscount 0 true = 0 := by
    unfold applyDiscount
    rw [if_pos rfl]
    simp [roundD_zero]
  rw [h]
  norm_num

/-- C2 amended: for every non-negative integer pre-discount total T, the
discounted total never exceeds T; it is strictly below T when the package
is allowlisted and T > 0; and it equals T exactly when the package is not
allowlisted or T = 0. -/
theorem C2_amended_discount (T : ℤ) (hT : 0 ≤ T) :
    applyDiscount T false = (T : ℚ) ∧
    applyDiscount T true ≤ (T : ℚ) ∧
    (0 < T → applyDiscount T true < (T : ℚ)) ∧
    (∀ b : Bool, applyDiscount T b = (T : ℚ) ↔ (b = false ∨ T = 0)) := by
  have hfalse : applyDiscount T false = (T : ℚ) := by
    unfold applyDiscount
    rw [if_neg (by simp)]
  have hzero : T = 0 → applyDiscount T true = 0 := by
    intro h
    subst h
    unfold applyDiscount
    rw [if_pos rfl]
    simp [roundD_zero]
  have hlt : 0 < T → applyDiscount T true < (T : ℚ) := by
    intro hTpos
    have hTQ : (0:ℚ) < (T : ℚ) := by exact_mod_cast hTpos
    unfold applyDiscount
    rw [if_pos rfl]
    have hx0 : 0 ≤ roundD ((T : ℚ)) := roundD_nonneg _ hTQ.le
    have hxle : roundD ((T : ℚ)) ≤ (T : ℚ) * (1 + 1/4503599627370496) :=
      roundD_le_mul _ hTQ
    rcases eq_or_lt_of_le hx0 with h0 | hxpos
    · rw [← h0, zero_mul, roundD_zero]
      simpa using hTQ
    · have hfl03 : (0:ℚ) < fl03 := by rw [fl03_eq]; norm_num
      have hprod : 0 < roundD ((T : ℚ)) * fl03 := mul_pos hxpos hfl03
      have h1 : roundD (roundD ((T : ℚ)) * fl03) ≤
          roundD ((T : ℚ)) * fl03 * (1 + 1/4503599627370496) :=
        roundD_le_mul _ hprod
      have h2 : roundD ((T : ℚ)) * fl03 * (1 + 1/4503599627370496) ≤
          ((T : ℚ) * (1 + 1/4503599627370496)) *
            (fl03 * (1 + 1/4503599627370496)) := by
        calc roundD ((T : ℚ)) * fl03 * (1 + 1/4503599627370496)
            = roundD ((T : ℚ)) * (fl03 * (1 + 1/4503599627370496)) := by ring
        _ ≤ ((T : ℚ) * (1 + 1/4503599627370496)) *
              (fl03 * (1 + 1/4503599627370496)) :=
            mul_le_mul_of_nonneg_right hxle (by rw [fl03_eq]; norm_num)
      have hc : ((1 + 1/4503599627370496) *
          (fl03 * (1 + 1/4503599627370496)) : ℚ) < 1 := by
        rw [fl03_eq]
        norm_num
      have h3 : ((T : ℚ) * (1 + 1/4503599627370496)) *
          (fl03 * (1 + 1/4503599627370496)) < (T : ℚ) := by
        calc ((T : ℚ) * (1 + 1/4503599627370496)) *
            (fl03 * (1 + 1/4503599627370496))
            = (T : ℚ) * ((1 + 1/4503599627370496) *
                (fl03 * (1 + 1/4503599627370496))) := by ring
        _ < (T : ℚ) * 1 := mul_lt_mul_of_pos_left hc hTQ
        _ = (T : ℚ) := by ring
      exact max_lt hTQ (by linarith)
  have hle : applyDiscount T true ≤ (T : ℚ) := by
    rcases eq_or_lt_of_le hT with h0 | hpos
    · rw [hzero h0.symm]
      exact_mod_cast hT
    · exact le_of_lt (hlt hpos)
  refine ⟨hfalse, hle, hlt, ?_⟩
  intro b
  cases b with
  | false => simp [hfalse]
  | true =>
      constructor
      · intro heq
        rcases eq_or_lt_of_le hT with h0 | hpos
        · exact Or.inr h0.symm
        · exact absurd heq (ne_of_lt (hlt hpos))
      · rintro (h | h)
        · exact absurd h (by simp)
        · rw [hzero h, h]
          norm_num

/-- Witness for C2 amended at T = 600. -/
theorem C2_amended_discount_witness :
    applyDiscount 600 false = ((600:ℤ) : ℚ) ∧
    applyDiscount 600 true < ((600:ℤ) : ℚ) :=
  ⟨(C2_amended_discount 600 (by norm_num)).1,
   (C2_amended_discount 600 (by norm_num)).2.2.1 (by norm_num)⟩

/-! ### C3 -/

/-- C3 counterexample: for permissions {READ_SMS, READ_CONTACTS,
ACCESS_NETWORK_STATE} the raw sum is 325 with two high-risk permissions,
so the claimed exact formula gives int(325 * 1.4) = 455; the code's
binary64 evaluation `int(325 * (1 + 2*0.2))` yields 454 (the float
product is 454.99999999999994). -/
theorem C3_counterexample :
    (calculate_permission_score ["android.permission.READ_SMS",
      "android.permission.READ_CONTACTS",
      "android.permission.ACCESS_NETWORK_STATE"]).1 = 454 ∧
    exactPermissionTotal ["android.permission.READ_SMS",
      "android.permission.READ_CONTACTS",
      "android.permission.ACCESS_NETWORK_STATE"] = 455 ∧
    (calculate_permission_score ["android.permission.READ_SMS",
      "android.permission.READ_CONTACTS",
      "android.permission.ACCESS_NETWORK_STATE"]).1 ≠
      exactPermissionTotal ["android.permission.READ_SMS",
        "android.permission.READ_CONTACTS",
        "android.permission.ACCESS_NETWORK_STATE"] := by
  have hraw : rawPermissionSum ["android.permission.READ_SMS",
      "android.permission.READ_CONTACTS",
      "android.permission.ACCESS_NETWORK_STATE"] = 325 := by decide
  have hhigh : highRiskList ["android.permission.READ_SMS",
      "android.permission.READ_CONTACTS",
      "android.permission.ACCESS_NETWORK_STATE"] =
      ["android.permission.READ_SMS", "android.permission.READ_CONTACTS"] := by
    decide
  have h1 : (calculate_permission_score ["android.permission.READ_SMS",
      "android.permission.READ_CONTACTS",
      "android.permission.ACCESS_NETWORK_STATE"]).1 = 454 := by
    rw [calculate_permission_score_eq, hraw, hhigh]
    show pyTrunc (roundD (roundD (((325:ℕ) : ℚ)) *
      roundD (1 + roundD (roundD ((((2:ℕ)) : ℚ)) * fl02)))) = 454
    have hc1 : (((325:ℕ)) : ℚ) = (325:ℚ) := by norm_num
    have hc2 : (((2:ℕ)) : ℚ) = (2:ℚ) := by norm_num
    rw [hc1, hc2, perm454]
    exact pyTrunc_eval _ _ (by norm_num) (by norm_num)
  have h2 : exactPermissionTotal ["android.permission.READ_SMS",
      "android.permission.READ_CONTACTS",
      "android.permission.ACCESS_NETWORK_STATE"] = 455 := by
    unfold exactPermissionTotal
    rw [hraw, hhigh]
    show pyTrunc ((((325:ℕ)) : ℚ) * (1 + (((2:ℕ)) : ℚ) * (1/5))) = 455
    have : ((((325:ℕ)) : ℚ) * (1 + (((2:ℕ)) : ℚ) * (1/5))) = 455 := by
      push_cast
      norm_num
    rw [this]
    exact pyTrunc_eval _ _ (by norm_num) (by norm_num)
  exact ⟨h1, h2, by rw [h1, h2]; decide⟩

/-- C3 amended: `calculate_permission_score` returns the high-risk
permissions (score ≥ 100) in input order together with the truncated
binary64 evaluation of `raw_sum * (1 + 0.2 * k)` — which can fall one
below the exact integer formula (see the counterexample), though not in
the spec's scenario: for {READ_SMS, SEND_SMS} the raw sum is 400, the two
high-risk permissions give multiplier 1.4, and both the float evaluation
and the exact formula yield 560. -/
theorem C3_amended_permission_score (perms : List String) :
    calculate_permission_score perms =
      (pyTrunc (roundD (roundD ((rawPermissionSum perms : ℚ)) *
        roundD (1 + roundD (roundD (((highRiskList perms).length : ℚ)) * fl02)))),
       highRiskList perms) ∧
    calculate_permission_score
      ["android.permission.READ_SMS", "android.permission.SEND_SMS"] =
      (560, ["android.permission.READ_SMS", "android.permission.SEND_SMS"]) ∧
    rawPermissionSum
      ["android.permission.READ_SMS", "android.permission.SEND_SMS"] = 400 ∧
    exactPermissionTotal
      ["android.permission.READ_SMS", "android.permission.SEND_SMS"] = 560 := by
  have hraw : rawPermissionSum
      ["android.permission.READ_SMS", "android.permission.SEND_SMS"] = 400 := by
    decide
  have hhigh : highRiskList
      ["android.permission.READ_SMS", "android.permission.SEND_SMS"] =
      ["android.permission.READ_SMS", "android.permission.SEND_SMS"] := by
    decide
  refine ⟨calculate_permission_score_eq perms, ?_, hraw, ?_⟩
  · rw [calculate_permission_score_eq, hraw, hhigh]
    have h1 : pyTrunc (roundD (roundD (((400:ℕ) : ℚ)) *
        roundD (1 + roundD (roundD ((((2:ℕ)) : ℚ)) * fl02)))) = 560 := by
      have hc1 : (((400:ℕ)) : ℚ) = (400:ℚ) := by norm_num
      have hc2 : (((2:ℕ)) : ℚ) = (2:ℚ) := by norm_num
      rw [hc1, hc2, perm560]
      exact pyTrunc_eval _ _ (by norm_num) (by norm_num)
    rw [Prod.mk.injEq]
    exact ⟨h1, rfl⟩
  · unfold exactPermissionTotal
    rw [hraw, hhigh]
    have : ((((400:ℕ)) : ℚ) *
        (1 + ((["android.permission.READ_SMS",
          "android.permission.SEND_SMS"].length : ℕ) : ℚ) * (1/5))) = 560 := by
      push_cast
      norm_num
    rw [this]
    exact pyTrunc_eval _ _ (by norm_num) (by norm_num)

/-! ### C4 -/

theorem mkReport_fields (input : AnalyzeInput) (facts : ApkFacts) :
    (mkReport input facts).permission_score =
      (calculate_permission_score facts.permissions).1 ∧
    (mkReport input facts).url_score =
      ((analyze_urls facts.strings).map UrlFinding.score).sum ∧
    (mkReport input facts).code_analysis_score =
      ((analyze_code_patterns input.codeStrings).map PatFinding.score).sum ∧
    (mkReport input facts).certificate_score =
      (calculate_certificate_risk facts.certificates).1 ∧
    (mkReport input facts).suspicious_code_patterns =
      analyze_code_patterns input.codeStrings ∧
    (mkReport input facts).is_known_safe_app =
      ((load_safe_apps input.safeState input.now input.attempt).1).contains
        (pyStrip (pyLower (pyOr facts.packageName "Unknown"))) ∧
    (mkReport input facts).total_score =
      pyTrunc (applyDiscount (reportPreTotal (mkReport input facts))
        ((mkReport input facts).is_known_safe_app)) ∧
    (mkReport input facts).overall_risk =
      riskLevel (applyDiscount (reportPreTotal (mkReport input facts))
        ((mkReport input facts).is_known_safe_app)) :=
  ⟨rfl, rfl, rfl, rfl, rfl, rfl, rfl, rfl⟩

theorem calculate_permission_score_nil :
    (calculate_permission_score ([] : List String)).1 = 0 := by
  rw [calculate_permission_score_eq]
  dsimp only
  have h0 : ((rawPermissionSum ([] : List String) : ℕ) : ℚ) = 0 := by
    norm_num [rawPermissionSum]
  rw [h0, roundD_zero, zero_mul, roundD_zero]
  exact pyTrunc_eval _ _ le_rfl Int.floor_zero

theorem applyDiscount_600_true : applyDiscount 600 true = 180 := by
  unfold applyDiscount
  rw [if_pos rfl]
  have hc : (((600:ℤ)) : ℚ) = (600:ℚ) := by norm_num
  rw [hc, disc180]
  norm_num

theorem report600_pre_total : reportPreTotal report600 = 600 := by
  rw [report600_eq]
  unfold reportPreTotal
  rw [(mkReport_fields input600 facts600).1,
    show facts600.permissions = ([] : List String) from rfl,
    calculate_permission_score_nil]
  have hurl : (mkReport input600 facts600).url_score = 600 := by decide
  have hcode : (mkReport input600 facts600).code_analysis_score = 0 := by decide
  have hcert : (mkReport input600 facts600).certificate_score = 0 := by decide
  rw [hurl, hcode, hcert]
  norm_num

theorem report600_safe : report600.is_known_safe_app = true := by
  rw [report600_eq]
  decide

/-- C4: for every completed analysis, the risk tier is the fixed threshold
ladder evaluated on the post-discount total reconstructed from the
report's sub-scores and allowlist flag; and in the §8 scenario — an
allowlisted package with pre-discount total 600 — the discounted total is
180 and the tier is "Moderate Risk", not "Dangerous". -/
theorem C4_risk_tier :
    (∀ (input : AnalyzeInput) (r : Report), (analyze_apk input).1 = .ok r →
      ((500 < applyDiscount (reportPreTotal r) r.is_known_safe_app →
          r.overall_risk = "Dangerous") ∧
       (200 < applyDiscount (reportPreTotal r) r.is_known_safe_app ∧
          applyDiscount (reportPreTotal r) r.is_known_safe_app ≤ 500 →
          r.overall_risk = "Potentially Risky") ∧
       (50 < applyDiscount (reportPreTotal r) r.is_known_safe_app ∧
          applyDiscount (reportPreTotal r) r.is_known_safe_app ≤ 200 →
          r.overall_risk = "Moderate Risk") ∧
       (applyDiscount (reportPreTotal r) r.is_known_safe_app ≤ 50 →
          r.overall_risk = "Likely Safe"))) ∧
    ((analyze_apk input600).1 = .ok report600 ∧
     report600.is_known_safe_app = true ∧
     reportPreTotal report600 = 600 ∧
     report600.total_score = 180 ∧
     report600.overall_risk = "Moderate Risk") := by
  constructor
  · intro input r h
    obtain ⟨facts, hload, hr⟩ := analyze_apk_ok_inv input r h
    subst hr
    rw [(mkReport_fields input facts).2.2.2.2.2.2.2]
    exact riskLevel_spec _
  · have hok : (analyze_apk input600).1 = .ok report600 := by
      rw [analyze_apk_ok input600 facts600 rfl rfl (by decide), report600_eq]
    have hdisc : applyDiscount (reportPreTotal report600)
        report600.is_known_safe_app = 180 := by
      rw [report600_pre_total, report600_safe, applyDiscount_600_true]
    refine ⟨hok, report600_safe, report600_pre_total, ?_, ?_⟩
    · rw [report600_eq, (mkReport_fields input600 facts600).2.2.2.2.2.2.1,
        ← report600_eq, hdisc]
      exact pyTrunc_eval _ _ (by norm_num) (by norm_num)
    · rw [report600_eq, (mkReport_fields input600 facts600).2.2.2.2.2.2.2,
        ← report600_eq, hdisc]
      exact (riskLevel_spec 180).2.2.1 ⟨by norm_num, by norm_num⟩

/-- Witness for C4's quantified part at the concrete scenario run. -/
theorem C4_risk_tier_witness : report600.overall_risk = "Moderate Risk" :=
  (C4_risk_tier.1 input600 report600 C4_risk_tier.2.1).2.2.1
    (by rw [report600_pre_total, report600_safe, applyDiscount_600_true]
        exact ⟨by norm_num, by norm_num⟩)

/-! ### C5 -/

/-- C5: `calculate_certificate_risk` yields exactly one of three results:
(0, "Certificate found (basic check)") when a certificate is present,
(100, "No certificate found") when the list is empty, and (75, note
containing the failure reason) when extraction raises; and a failing
extraction never aborts the analysis — the run still produces a complete
report, carrying certificate score 75. -/
theorem C5_certificate_risk_trichotomy (c : PyResult (List Unit)) :
    (∀ certs, c = .ok certs → certs ≠ [] →
      calculate_certificate_risk c = (0, "Certificate found (basic check)")) ∧
    (c = .ok [] →
      calculate_certificate_risk c = (100, "No certificate found")) ∧
    (∀ m, c = .exn m →
      (calculate_certificate_risk c).1 = 75 ∧
      (calculate_certificate_risk c).2 = "Certificate analysis failed: " ++ m ∧
      strHasSub m (calculate_certificate_risk c).2 = true) ∧
    (calculate_certificate_risk c = (0, "Certificate found (basic check)") ∨
     calculate_certificate_risk c = (100, "No certificate found") ∨
     (calculate_certificate_risk c).1 = 75) ∧
    (∀ (input : AnalyzeInput) (facts : ApkFacts) (m : String),
      input.fileExists = true → input.apkLoad = .ok facts →
      pyOr facts.packageName "Unknown" ≠ "Unknown" →
      facts.certificates = .exn m →
      ∃ r, (analyze_apk input).1 = .ok r ∧ r.certificate_score = 75) := by
  refine ⟨?_, ?_, ?_, ?_, ?_⟩
  · intro certs hc hne
    subst hc
    simp [calculate_certificate_risk, hne]
  · intro hc
    subst hc
    simp [calculate_certificate_risk]
  · intro m hc
    subst hc
    refine ⟨rfl, rfl, ?_⟩
    have hsub : ∀ pre : List Char, listHasSub m.toList (pre ++ m.toList) = true := by
      intro pre
      induction pre with
      | nil =>
        unfold listHasSub
        simp only [List.nil_append, Bool.or_eq_true]
        left
        exact List.isPrefixOf_iff_prefix.mpr List.prefix_rfl
      | cons c t ih =>
        unfold listHasSub
        simp only [List.cons_append, Bool.or_eq_true]
        right
        exact ih
    have h2 := hsub ("Certificate analysis failed: ".toList)
    have h3 : ("Certificate analysis failed: " ++ m).toList =
        "Certificate analysis failed: ".toList ++ m.toList := by
      simp [String.toList, String.data_append]
    simpa [strHasSub, calculate_certificate_risk, h3] using h2
  · cases c with
    | ok certs => cases certs with
      | nil => right; left; rfl
      | cons a t => left; simp [calculate_certificate_risk]
    | exn m => right; right; rfl
  · intro input facts m hfe hload hpkg hcert
    refine ⟨mkReport input facts, ?_, ?_⟩
    · rw [analyze_apk_ok input facts hfe hload hpkg]
    · rw [(mkReport_fields input facts).2.2.2.1, hcert]
      rfl

/-- Witness for C5 at concrete inputs: certificate present, empty list, a
raising extraction, and a full analysis run whose certificate extraction
raises yet a complete report is produced. -/
theorem C5_certificate_risk_trichotomy_witness :
    calculate_certificate_risk (.ok [()]) =
      (0, "Certificate found (basic check)") ∧
    calculate_certificate_risk (.ok []) = (100, "No certificate found") ∧
    (calculate_certificate_risk (.exn "bad signing block")).1 = 75 ∧
    (∃ r, (analyze_apk inputCertFail).1 = .ok r ∧ r.certificate_score = 75) :=
  ⟨(C5_certificate_risk_trichotomy (.ok [()])).1 [()] rfl (by decide),
   (C5_certificate_risk_trichotomy (.ok [])).2.1 rfl,
   ((C5_certificate_risk_trichotomy (.exn "bad signing block")).2.2.1
      "bad signing block" rfl).1,
   (C5_certificate_risk_trichotomy (.ok [])).2.2.2.2 inputCertFail
      factsCertFail "bad signing block" rfl rfl (by decide) rfl⟩

/-! ### C6 -/

/-- C6: the domain scanner extracts URL-shaped hosts, discards hosts
shorter than 5 characters, and classifies the rest first-match-wins:
known-bad → "Known malicious domain"/200, else unknown-with-substring
("api"/"cloud"/"server") → "Suspicious external domain"/50, else no
finding; with the spec's scenario string as a concrete instance. -/
theorem C6_domain_scan (pool : List StrItem) :
    analyze_urls pool = urlScanSpec pool ∧
    analyze_urls [.ok "http://api.example-server.com/data"] =
      [⟨"api.example-server.com", "Suspicious external domain", 50⟩] ∧
    classifyDomainSpec "malicious-domain.com" =
      some ⟨"malicious-domain.com", "Known malicious domain", 200⟩ ∧
    classifyDomainSpec "example.org" = none :=
  ⟨analyze_urls_eq pool, by decide, by decide, by decide⟩

/-! ### C7 -/

/-- C7: a domain in the known-good set never produces a finding — every
finding's domain is outside the known-good set, even when it contains a
suspicious substring — and the known-good and known-bad sets are
disjoint. -/
theorem C7_known_good_never_flagged :
    (∀ (pool : List StrItem) (f : UrlFinding),
      f ∈ analyze_urls pool → f.url ∉ KNOWN_GOOD_DOMAINS) ∧
    (∀ d ∈ KNOWN_GOOD_DOMAINS, d ∉ KNOWN_BAD_DOMAINS) := by
  have hdisj : ∀ d ∈ KNOWN_BAD_DOMAINS, d ∉ KNOWN_GOOD_DOMAINS := by decide
  constructor
  · intro pool f hf
    rw [analyze_urls_eq] at hf
    unfold urlScanSpec at hf
    rw [List.mem_flatMap] at hf
    obtain ⟨item, _, hmem⟩ := hf
    cases item with
    | decodeFail => simp at hmem
    | ok t =>
        unfold domainFindingsSpec at hmem
        rw [List.mem_filterMap] at hmem
        obtain ⟨d, _, hd⟩ := hmem
        by_cases h5 : d.length < 5
        · rw [if_pos h5] at hd
          exact absurd hd (by simp)
        · rw [if_neg h5] at hd
          unfold classifyDomainSpec at hd
          by_cases hbad : d ∈ KNOWN_BAD_DOMAINS
          · rw [if_pos hbad] at hd
            injection hd with hd'
            rw [← hd']
            exact hdisj d hbad
          · rw [if_neg hbad] at hd
            by_cases hcond : d ∉ KNOWN_GOOD_DOMAINS ∧
                (strHasSub "api" d || strHasSub "cloud" d ||
                  strHasSub "server" d) = true
            · rw [if_pos hcond] at hd
              injection hd with hd'
              rw [← hd']
              exact hcond.1
            · rw [if_neg hcond] at hd
              exact absurd hd (by simp)
  · intro d hgood hbad
    exact hdisj d hbad hgood

/-- Witness for C7: googleapis.com is known-good, contains "api", yields
no finding; a finding produced from a known-bad domain has a
non-known-good domain; and a known-good domain is not known-bad. -/
theorem C7_known_good_never_flagged_witness :
    ("googleapis.com" ∈ KNOWN_GOOD_DOMAINS ∧
     strHasSub "api" "googleapis.com" = true ∧
     analyze_urls [.ok "http://googleapis.com/x"] = []) ∧
    (⟨"malicious-domain.com", "Known malicious domain", 200⟩ :
      UrlFinding).url ∉ KNOWN_GOOD_DOMAINS ∧
    "googleapis.com" ∉ KNOWN_BAD_DOMAINS :=
  ⟨⟨by decide, by decide, by decide⟩,
   C7_known_good_never_flagged.1 [.ok "http://malicious-domain.com/x"] _
     (by decide),
   C7_known_good_never_flagged.2 "googleapis.com" (by decide)⟩

/-! ### C8 -/

/-- C8: every analysis returns either a structured error or a complete
report (nothing in between), and when the package identifier cannot be
determined the run errors with only the APK parse performed — no hashing,
allowlist lookup, or scoring. -/
theorem C8_error_or_complete (input : AnalyzeInput) :
    ((∃ e, (analyze_apk input).1 = .error e) ∨
     (∃ r, (analyze_apk input).1 = .ok r)) ∧
    (∀ facts : ApkFacts, input.fileExists = true → input.apkLoad = .ok facts →
      pyOr facts.packageName "Unknown" = "Unknown" →
      (analyze_apk input).1 = .error "Could not extract package name from APK" ∧
      (analyze_apk input).2 = [Effect.loadApk] ∧
      Effect.hashFile ∉ (analyze_apk input).2 ∧
      Effect.loadSafeApps ∉ (analyze_apk input).2 ∧
      Effect.scorePermissions ∉ (analyze_apk input).2 ∧
      Effect.scanUrls ∉ (analyze_apk input).2 ∧
      Effect.scanPatterns ∉ (analyze_apk input).2 ∧
      Effect.certCheck ∉ (analyze_apk input).2) := by
  constructor
  · cases h : (analyze_apk input).1 with
    | error e => exact Or.inl ⟨e, rfl⟩
    | ok r => exact Or.inr ⟨r, rfl⟩
  · intro facts hfe hload hpkg
    have hred : analyze_apk input =
        (.error "Could not extract package name from APK",
         [Effect.loadApk]) := by
      unfold analyze_apk
      rw [hfe, hload]
      simp only [Bool.true_eq_false, if_false]
      rw [if_pos hpkg]
    rw [hred]
    refine ⟨rfl, rfl, ?_, ?_, ?_, ?_, ?_, ?_⟩ <;> decide

/-- Witness for C8 at an APK with an undeterminable package name. -/
theorem C8_error_or_complete_witness :
    (analyze_apk inputNoPkg).1 =
      .error "Could not extract package name from APK" ∧
    (analyze_apk inputNoPkg).2 = [Effect.loadApk] ∧
    Effect.hashFile ∉ (analyze_apk inputNoPkg).2 ∧
    Effect.loadSafeApps ∉ (analyze_apk inputNoPkg).2 :=
  ⟨((C8_error_or_complete inputNoPkg).2 factsNoPkg rfl rfl (by decide)).1,
   ((C8_error_or_complete inputNoPkg).2 factsNoPkg rfl rfl (by decide)).2.1,
   ((C8_error_or_complete inputNoPkg).2 factsNoPkg rfl rfl (by decide)).2.2.1,
   ((C8_error_or_complete inputNoPkg).2 factsNoPkg rfl rfl (by decide)).2.2.2.1⟩

/-! ### C9 -/

/-- C9: the pattern scanner emits one finding per (string, pattern) pair
whose pattern matches case-insensitively — duplicates across strings all
retained, in catalog order per string — decode failures are skipped
without aborting, a raising APK parse yields no findings, and the
aggregate pattern score in every report equals the sum of its finding
scores.  The concrete pool shows duplicate retention and decode-skip. -/
theorem C9_pattern_scan (pool : List StrItem) :
    analyze_code_patterns (.ok pool) = patternScanSpec pool ∧
    (∀ m, analyze_code_patterns (.exn m) = []) ∧
    (∀ (input : AnalyzeInput) (r : Report), (analyze_apk input).1 = .ok r →
      r.code_analysis_score =
        (r.suspicious_code_patterns.map PatFinding.score).sum) ∧
    analyze_code_patterns (.ok [.ok "please Encrypt", .decodeFail,
      .ok "re-encrypt now"]) =
      [⟨"encrypt", 50, "APK strings"⟩, ⟨"encrypt", 50, "APK strings"⟩] := by
  refine ⟨analyze_code_patterns_eq pool, fun m => rfl, ?_, by decide⟩
  intro input r h
  obtain ⟨facts, hload, hr⟩ := analyze_apk_ok_inv input r h
  subst hr
  rw [(mkReport_fields input facts).2.2.1,
    (mkReport_fields input facts).2.2.2.2.1]

theorem report600_ok : (analyze_apk input600).1 = .ok report600 := by
  rw [analyze_apk_ok input600 facts600 rfl rfl (by decide), report600_eq]

/-- Witness for C9's report-sum property at the scenario run. -/
theorem C9_pattern_scan_witness :
    report600.code_analysis_score =
      (report600.suspicious_code_patterns.map PatFinding.score).sum :=
  (C9_pattern_scan []).2.2.1 input600 report600 report600_ok

/-! ### C10 -/

/-- C10: `get_permission_risk` returns "High Risk" exactly when the static
table score is ≥ 100, "Medium Risk" exactly when it is in [50, 100), and
"Low Risk" otherwise; permissions absent from the static table score 0
and are annotated "Low Risk". -/
theorem C10_permission_risk_thresholds (p : String) :
    (get_permission_risk p = "High Risk" ↔ 100 ≤ permScore p) ∧
    (get_permission_risk p = "Medium Risk" ↔
      50 ≤ permScore p ∧ permScore p < 100) ∧
    (get_permission_risk p = "Low Risk" ↔ permScore p < 50) ∧
    ((PERMISSION_SCORES.lookup p) = none → get_permission_risk p = "Low Risk") := by
  have hval : get_permission_risk p =
      if 100 ≤ permScore p then "High Risk"
      else if 50 ≤ permScore p then "Medium Risk" else "Low Risk" := rfl
  by_cases h1 : 100 ≤ permScore p
  · rw [hval, if_pos h1]
    refine ⟨iff_of_true rfl h1, iff_of_false (by decide) (by omega),
      iff_of_false (by decide) (by omega), ?_⟩
    intro h
    exfalso
    simp [permScore, h] at h1
  · rw [hval, if_neg h1]
    by_cases h2 : 50 ≤ permScore p
    · rw [if_pos h2]
      refine ⟨iff_of_false (by decide) h1,
        iff_of_true rfl ⟨h2, by omega⟩, iff_of_false (by decide) (by omega), ?_⟩
      intro h
      exfalso
      simp [permScore, h] at h2
    · rw [if_neg h2]
      exact ⟨iff_of_false (by decide) h1,
        iff_of_false (by decide) (fun h => h2 h.1),
        iff_of_true rfl (by omega), fun _ => rfl⟩

/-- Witness for C10 at concrete inputs: a tabled high-risk permission and
an unknown permission. -/
theorem C10_permission_risk_thresholds_witness :
    (get_permission_risk "android.permission.READ_SMS" = "High Risk") ∧
    (get_permission_risk "com.example.UNKNOWN" = "Low Risk") :=
  ⟨(C10_permission_risk_thresholds "android.permission.READ_SMS").1.mpr
      (by decide),
   (C10_permission_risk_thresholds "com.example.UNKNOWN").2.2.2 (by decide)⟩
